import Mathlib

/-!
# A shallow embedding of the PrometheusReporter metrics core

This file embeds `src/reporters/PrometheusReporter.js` of the
`opentracing-metrics-tracer` package: the span classifier, the name
normalizers, the ignore-tag filter, the reporter orchestration and the
registry of histograms and counters, together with proofs of the
behavioural properties claimed by the specification.

JavaScript values are embedded as follows: strings are `String`, numbers
are `ℚ` (the claims under study exercise no floating-point rounding),
booleans are `Bool`, and a tag read that can miss is the `TagValue.undef`
variant.  Thrown exceptions are `Except` errors; an error carries the
registry at the moment of the throw, since a JavaScript exception does not
roll back earlier mutations.
-/

set_option maxHeartbeats 1000000

/-- A JavaScript value readable from a span tag: absent (`undefined`),
a string, a number, or a boolean. -/
inductive TagValue where
  | undef : TagValue
  | str : String → TagValue
  | num : ℚ → TagValue
  | bool : Bool → TagValue
deriving DecidableEq

/-- JavaScript truthiness of a tag value: `undefined`, the empty string,
`0` and `false` are falsy, everything else is truthy. -/
def truthy : TagValue → Bool
  | TagValue.undef => false
  | TagValue.str s => s ≠ ""
  | TagValue.num q => q ≠ 0
  | TagValue.bool b => b

/-- Modelled from the spec: the external span interface consumed by the
reporter (`operationName() : string`, `duration() : number` in
milliseconds, `getTag(key)`); the tracer's `Span` class itself is not part
of the sources under study. -/
structure Span where
  operationName : String
  duration : ℚ
  tags : List (String × TagValue)

/-- Read a tag from a span; a missing key reads as `undefined`. -/
def Span.getTag (span : Span) (key : String) : TagValue :=
  match span.tags.find? (fun p => p.1 = key) with
  | some p => p.2
  | none => TagValue.undef

/-- The `opentracing` tag key `Tags.SPAN_KIND`. -/
def SPAN_KIND : String := "span.kind"

/-- The `opentracing` sentinel `Tags.SPAN_KIND_RPC_SERVER`. -/
def SPAN_KIND_RPC_SERVER : String := "server"

/-- The `opentracing` tag key `Tags.HTTP_URL`. -/
def HTTP_URL : String := "http.url"

/-- The `opentracing` tag key `Tags.HTTP_METHOD`. -/
def HTTP_METHOD : String := "http.method"

/-- The `opentracing` tag key `Tags.HTTP_STATUS_CODE`. -/
def HTTP_STATUS_CODE : String := "http.status_code"

/-- The label constant `LABEL_OTHER`. -/
def LABEL_OTHER : String := "other"

/-- The label constant `LABEL_PARENT_SERVICE_UNKNOWN`. -/
def LABEL_PARENT_SERVICE_UNKNOWN : String := "unknown"

/-- JavaScript `String.prototype.toUpperCase` on the code points of a
string (the inputs under study are ASCII). -/
def jsUpper (s : String) : String := String.mk (s.data.map Char.toUpper)

/-- JavaScript `String.prototype.toLowerCase` on the code points of a
string (the inputs under study are ASCII). -/
def jsLower (s : String) : String := String.mk (s.data.map Char.toLower)

/-- One character of `NORM_RE` replacement: characters outside
`[A-Za-z0-9\-_/.]` are replaced by a dash. -/
def normChar (c : Char) : Char :=
  if c.isAlphanum ∨ c = '-' ∨ c = '_' ∨ c = '/' ∨ c = '.' then c else '-'

/-- The replacement `name.replace(NORM_RE, '-')`: replace every character outside
`[A-Za-z0-9\-_/.]` with `-`. -/
def normalizeIdentifier (s : String) : String := String.mk (s.data.map normChar)

/-- One character of `NS_RE` replacement: `.` and `-` become `_`. -/
def nsChar (c : Char) : Char := if c = '.' ∨ c = '-' then '_' else c

/-- The local helper `ns` of `metricName`: `nm.replace(NS_RE, '_')`. -/
def nsRep (s : String) : String := String.mk (s.data.map nsChar)

/-- The static `PrometheusReporter.metricName(name, namespace = '')`, transcribed from
the source: an empty namespace yields the sanitized name; a non-empty name
(with a non-empty namespace) yields the sanitized namespace; the composite
`namespace:name` form is reached only when the namespace is non-empty and
the name is empty. -/
def metricName (name : String) (nspace : String := "") : String :=
  if nspace = "" then nsRep name
  else if name ≠ "" then nsRep nspace
  else nsRep nspace ++ ":" ++ nsRep name

/-- Whether a tag value is a string whose lower-casing differs from
`"true"`: the second disjunct of the guard in `errorValue`. -/
def isStringNotTrue : TagValue → Bool
  | TagValue.str s => jsLower s ≠ "true"
  | _ => false

/-- The static `PrometheusReporter.errorValue(span)`: `"false"` when the `error` tag
is falsy or is a string whose lower-casing is not `"true"`, else
`"true"`. -/
def errorValue (span : Span) : String :=
  let err := span.getTag "error"
  if !(truthy err) || isStringNotTrue err then "false" else "true"

/-- The static `PrometheusReporter.isHttpServerSpan(span)`: the span-kind tag is
strictly equal to the RPC-server sentinel and one of the three HTTP tags
is truthy. -/
def isHttpServerSpan (span : Span) : Bool :=
  (span.getTag SPAN_KIND == TagValue.str SPAN_KIND_RPC_SERVER) &&
    (truthy (span.getTag HTTP_URL) || truthy (span.getTag HTTP_METHOD) ||
      truthy (span.getTag HTTP_STATUS_CODE))

/-- The errors the embedded reporter can throw: a `TypeError` from calling
a method on a value that lacks it, and the `TypeError [ERR_INVALID_URL]`
of the WHATWG URL parser. -/
inductive JsError where
  | typeError : JsError
  | urlError : JsError
deriving DecidableEq

/-- Split a character list at the first occurrence of `pat`, returning the
parts before and after it, or `none` when `pat` does not occur. -/
def splitFirst (pat : List Char) : List Char → Option (List Char × List Char)
  | [] => none
  | c :: cs =>
    if pat.isPrefixOf (c :: cs) then some ([], (c :: cs).drop pat.length)
    else
      match splitFirst pat cs with
      | some (pre, post) => some (c :: pre, post)
      | none => none

/-- The parts of a parsed URL read by `endpointName`: `protocol` keeps the
trailing `:` as in the WHATWG API, `pathname` starts at the first `/`
after the authority (empty when the URL has no path). -/
structure URLRec where
  protocol : String
  pathname : String
deriving DecidableEq

/-- Modelled from the spec: `new URL(input)` of the Node `url` module,
which is not part of the sources under study; the spec pins only that a
URL yields a scheme and a path and that a malformed input throws.  The
model requires a non-empty scheme followed by `://` and takes the path
from the first slash after the authority. -/
def parseURL (s : String) : Except JsError URLRec :=
  match splitFirst ("://".data) s.data with
  | none => Except.error JsError.urlError
  | some (scheme, rest) =>
    if scheme = [] then Except.error JsError.urlError
    else
      Except.ok
        { protocol := String.mk scheme ++ ":"
          pathname := String.mk (rest.dropWhile (fun c => c ≠ '/')) }

/-- JavaScript string coercion of a tag value, as applied by
`new URL(reqUrl)` to a non-string argument. -/
def jsToString : TagValue → String
  | TagValue.str s => s
  | TagValue.num q => toString q.num ++ (if q.den = 1 then "" else "/" ++ toString q.den)
  | TagValue.bool b => if b then "true" else "false"
  | TagValue.undef => "undefined"

/-- The static `PrometheusReporter.endpointName(span)`: a falsy HTTP-URL tag yields
the literal `other`; otherwise the URL is parsed (a failure propagates),
the scheme loses its trailing `:` and is upper-cased, the method tag is
upper-cased (a non-string method has no `toUpperCase` and throws), the
path defaults to `/`, and the composite `"{SCHEME} {METHOD} {path}"` is
normalized. -/
def endpointName (span : Span) : Except JsError String :=
  let reqUrl := span.getTag HTTP_URL
  if !(truthy reqUrl) then Except.ok LABEL_OTHER
  else
    match parseURL (jsToString reqUrl) with
    | Except.error e => Except.error e
    | Except.ok url =>
      let scheme := jsUpper (String.mk url.protocol.data.dropLast)
      match span.getTag HTTP_METHOD with
      | TagValue.str m =>
        let path := if url.pathname = "" then "/" else url.pathname
        Except.ok (normalizeIdentifier (scheme ++ " " ++ jsUpper m ++ " " ++ path))
      | _ => Except.error JsError.typeError

/-- The numeric value of a digit character sequence prefix, or `none` when
no digit starts the sequence: the core of `parseInt`. -/
def parseDigits (cs : List Char) : Option ℕ :=
  let ds := cs.takeWhile Char.isDigit
  if ds = [] then none
  else some (ds.foldl (fun acc c => acc * 10 + (c.toNat - 48)) 0)

/-- JavaScript `parseInt(s, 10)` on a string: skip leading spaces, accept
an optional sign, then read the longest digit prefix; no digits is `NaN`,
embedded as `none`. -/
def jsParseIntStr (s : String) : Option Int :=
  match s.data.dropWhile (fun c => c = ' ') with
  | '-' :: rest => (parseDigits rest).map (fun n => -(n : Int))
  | '+' :: rest => (parseDigits rest).map (fun n => (n : Int))
  | cs => (parseDigits cs).map (fun n => (n : Int))

/-- JavaScript `parseInt(v, 10)` on a tag value: a number is stringified
and re-parsed, which truncates it toward zero; booleans and `undefined`
stringify to words without a digit prefix and give `NaN` (`none`). -/
def jsParseIntTag : TagValue → Option Int
  | TagValue.str s => jsParseIntStr s
  | TagValue.num q => some (Int.tdiv q.num q.den)
  | _ => none

/-- The eleven finite histogram bucket bounds
`DURATION_HISTOGRAM_BUCKETS`, in seconds. -/
def DURATION_HISTOGRAM_BUCKETS : List ℚ :=
  [0.005, 0.01, 0.025, 0.05, 0.1, 0.25, 0.5, 1, 2.5, 5, 10]

/-- The number of finite bucket bounds. -/
def nBuckets : ℕ := DURATION_HISTOGRAM_BUCKETS.length

/-- The finite bucket bound at index `i`. -/
def bucketBound (i : ℕ) : ℚ := DURATION_HISTOGRAM_BUCKETS.getD i 0

/-- Modelled from the spec: the per-label-set state of a histogram as the
spec's data model describes it — a parallel array of cumulative bucket
counts (one slot per finite bound plus a final slot for the implicit
`+Inf` bucket), a running sum and a running count; `observations` is the
history of observed values, carried so the stated invariants can speak
about the values that were recorded.  The histogram/counter recording
engine (`prom-client`) is not part of the sources under study. -/
structure HistData where
  observations : List ℚ
  bucketCounts : List ℕ
  sum : ℚ
  count : ℕ
deriving DecidableEq

/-- The state of a histogram label set before any observation. -/
def emptyHist : HistData :=
  { observations := []
    bucketCounts := List.replicate (nBuckets + 1) 0
    sum := 0
    count := 0 }

/-- Modelled from the spec: one observation's effect on the cumulative
bucket counts — every finite bucket whose bound is at least the value is
incremented, and the final `+Inf` slot always is. -/
def bumpCounts (v : ℚ) (counts : List ℕ) : List ℕ :=
  counts.mapIdx (fun i c =>
    if i < nBuckets then (if v ≤ bucketBound i then c + 1 else c) else c + 1)

/-- Modelled from the spec: `Histogram.observe(v)` on one label set. -/
def observeHist (v : ℚ) (d : HistData) : HistData :=
  { observations := d.observations ++ [v]
    bucketCounts := bumpCounts v d.bucketCounts
    sum := d.sum + v
    count := d.count + 1 }

/-- Lookup in an association list with a default for an absent key. -/
def alGet {K V : Type} [DecidableEq K] (d0 : V) : List (K × V) → K → V
  | [], _ => d0
  | (k, v) :: rest, key => if k = key then v else alGet d0 rest key

/-- Point update of an association list: apply `f` to the value at `key`,
starting from `d0` and appending when the key is new (first touch of a
label set registers it at the end, preserving registration order). -/
def alUpdate {K V : Type} [DecidableEq K] (f : V → V) (d0 : V) :
    List (K × V) → K → List (K × V)
  | [], key => [(key, f d0)]
  | (k, v) :: rest, key =>
    if k = key then (k, f v) :: rest else (k, v) :: alUpdate f d0 rest key

/-- Observe a value in a histogram under a label set. -/
def hObserve {K : Type} [DecidableEq K] (h : List (K × HistData)) (key : K) (v : ℚ) :
    List (K × HistData) :=
  alUpdate (observeHist v) emptyHist h key

/-- Increment a counter under a label set. -/
def cInc {K : Type} [DecidableEq K] (c : List (K × ℕ)) (key : K) : List (K × ℕ) :=
  alUpdate (fun n => n + 1) 0 c key

/-- The reporter's registry: the `operations` histogram is created eagerly
by the constructor, the three HTTP metrics are created lazily on first
use (`none` until then).  The `operations` histogram is labelled by the
operation name; the HTTP metrics are labelled by `(endpoint, error)` or
`(endpoint, status_code)`. -/
structure Registry where
  operations : List (String × HistData)
  requests : Option (List ((String × String) × ℕ))
  request_latency : Option (List ((String × String) × HistData))
  http_requests : Option (List ((String × String) × ℕ))
deriving DecidableEq

/-- The registry as the constructor leaves it: the `operations` histogram
exists as an empty shell, nothing else is registered. -/
def initialRegistry : Registry :=
  { operations := [], requests := none, request_latency := none, http_requests := none }

/-- The construction options: the ignore rules, as the ordered entries of
the `ignoreTags` object — a tag key paired with a pattern, embedded as its
match predicate on strings. -/
structure Options where
  ignoreTags : List (String × (String → Bool))

/-- The ignore-rule evaluation of `reportFinish`:
`Object.entries(ignoreTags).some(([tagKey, regexp]) => tagValue && tagValue.match(regexp))`.
A falsy tag value short-circuits to the next rule; a truthy string is
matched against the pattern; a truthy non-string has no `match` method and
throws a `TypeError`. -/
def ignoreEval (span : Span) : List (String × (String → Bool)) → Except JsError Bool
  | [] => Except.ok false
  | (tagKey, pat) :: rest =>
    let tagValue := span.getTag tagKey
    if truthy tagValue then
      match tagValue with
      | TagValue.str s => if pat s then Except.ok true else ignoreEval span rest
      | _ => Except.error JsError.typeError
    else ignoreEval span rest

/-- The method `_reportOperationFinish(span)`: observe `duration / 1000` in the
`operations` histogram under the operation-name label. -/
def reportOperationFinish (reg : Registry) (span : Span) : Registry :=
  { reg with operations := hObserve reg.operations span.operationName (span.duration / 1000) }

/-- The method `_recordHttpResponseMetrics(endpoint, statusCode)`: when the status
code (`NaN` embedded as `none`) truncated by 100 lands in `[2,5]`, the
`http_requests` counter is incremented under
`(endpoint, "<digit>xx")`; otherwise nothing happens. -/
def recordHttpResponseMetrics (reg : Registry) (endpoint : String)
    (statusCode : Option Int) : Registry :=
  match statusCode with
  | none => reg
  | some n =>
    let m := Int.tdiv n 100
    if 2 ≤ m ∧ m ≤ 5 then
      { reg with
        http_requests :=
          some (cInc (reg.http_requests.getD []) (endpoint, toString m ++ "xx")) }
    else reg

/-- The method `_reportHttpRequestFinish(span)`: compute the endpoint label (a parse
or type error propagates before any metric is touched), then record the
request counter and latency histogram under `(endpoint, error)`, then the
status-code counter. -/
def reportHttpRequestFinish (reg : Registry) (span : Span) :
    Except (JsError × Registry) Registry :=
  match endpointName span with
  | Except.error e => Except.error (e, reg)
  | Except.ok endpoint =>
    let err := errorValue span
    let reg1 : Registry :=
      { reg with
        requests := some (cInc (reg.requests.getD []) (endpoint, err))
        request_latency :=
          some (hObserve (reg.request_latency.getD []) (endpoint, err)
            (span.duration / 1000)) }
    Except.ok
      (recordHttpResponseMetrics reg1 endpoint
        (jsParseIntTag (span.getTag HTTP_STATUS_CODE)))

/-- The method `reportFinish(span)`: evaluate the ignore rules (an evaluation error
propagates), return silently on a match, otherwise route the span to the
HTTP-request or the generic-operation recording path.  A propagated error
carries the registry at the moment of the throw. -/
def reportFinish (opts : Options) (reg : Registry) (span : Span) :
    Except (JsError × Registry) Registry :=
  match ignoreEval span opts.ignoreTags with
  | Except.error e => Except.error (e, reg)
  | Except.ok true => Except.ok reg
  | Except.ok false =>
    if isHttpServerSpan span then reportHttpRequestFinish reg span
    else Except.ok (reportOperationFinish reg span)

/-- The registry as the caller observes it after `reportFinish`, whether
the call returned or threw (a JavaScript throw does not roll back the
shared registry). -/
def afterReport (opts : Options) (reg : Registry) (span : Span) : Registry :=
  match reportFinish opts reg span with
  | Except.ok r => r
  | Except.error (_, r) => r

/-- Whether `reportFinish` returns without throwing. -/
def reportOk (opts : Options) (reg : Registry) (span : Span) : Bool :=
  match reportFinish opts reg span with
  | Except.ok _ => true
  | Except.error _ => false

/-- A sequence of `reportFinish` calls on one reporter, each call seeing
the registry the previous one left behind. -/
def runReports (opts : Options) : Registry → List Span → Registry
  | reg, [] => reg
  | reg, span :: rest => runReports opts (afterReport opts reg span) rest

/-- Decimal rendering of a rational with a finite decimal expansion, as a
JavaScript number prints (no trailing zeros); a rational with no finite
expansion falls back to a fraction form, which no rendered value under
study reaches. -/
def ratToDec (q : ℚ) : String :=
  if q.den = 1 then toString q.num
  else
    match (List.range 18).find? (fun k => (q * (10 : ℚ) ^ k).den = 1) with
    | some k =>
      let m := (q * (10 : ℚ) ^ k).num
      let digits := toString m.natAbs
      let digits :=
        if digits.length ≤ k then
          String.mk (List.replicate (k + 1 - digits.length) '0') ++ digits
        else digits
      (if m < 0 then "-" else "") ++ digits.dropRight k ++ "." ++ digits.takeRight k
    | none => toString q.num ++ "/" ++ toString q.den

/-- A comma-joined rendering of label names against label values, each as
`name="value"`. -/
def renderLabelPairs (names vals : List String) : String :=
  String.intercalate "," ((names.zip vals).map (fun p => p.1 ++ "=\"" ++ p.2 ++ "\""))

/-- Modelled from the spec: the data lines of one histogram label set —
one `_bucket` line per finite bound in declared order, the `+Inf` line,
then `_sum` and `_count`. -/
def histLines (name : String) (labelNames vals : List String) (d : HistData) :
    List String :=
  ((List.range nBuckets).map (fun i =>
    name ++ "_bucket\x7ble=\"" ++ ratToDec (bucketBound i) ++ "\"," ++
      renderLabelPairs labelNames vals ++ "\x7d " ++ toString (d.bucketCounts.getD i 0)))
  ++ [name ++ "_bucket\x7ble=\"+Inf\"," ++ renderLabelPairs labelNames vals ++ "\x7d " ++
        toString (d.bucketCounts.getD nBuckets 0),
      name ++ "_sum\x7b" ++ renderLabelPairs labelNames vals ++ "\x7d " ++ ratToDec d.sum,
      name ++ "_count\x7b" ++ renderLabelPairs labelNames vals ++ "\x7d " ++
        toString d.count]

/-- Modelled from the spec: a registered histogram's exposition block —
the HELP and TYPE header then the data lines of every touched label set in
registration order. -/
def renderHistBlock (name help : String) (labelNames : List String)
    (data : List (List String × HistData)) : String :=
  String.intercalate "\n"
    (["# HELP " ++ name ++ " " ++ help, "# TYPE " ++ name ++ " histogram"] ++
      (data.flatMap (fun p => histLines name labelNames p.1 p.2)))

/-- Modelled from the spec: a registered counter's exposition block. -/
def renderCounterBlock (name help : String) (labelNames : List String)
    (data : List (List String × ℕ)) : String :=
  String.intercalate "\n"
    (["# HELP " ++ name ++ " " ++ help, "# TYPE " ++ name ++ " counter"] ++
      (data.map (fun p =>
        name ++ "\x7b" ++ renderLabelPairs labelNames p.1 ++ "\x7d " ++ toString p.2)))

/-- Modelled from the spec: `metrics()` — the text exposition of every
registered metric in registration order, blocks separated by a blank
line. -/
def render (reg : Registry) : String :=
  String.intercalate "\n\n"
    ([renderHistBlock "operations" "Duration of operations in second" ["name"]
        (reg.operations.map (fun p => ([p.1], p.2)))]
      ++ (match reg.requests with
          | none => []
          | some data =>
            [renderCounterBlock "requests"
              "Counts the number of requests made distinguished by their endpoint and error status"
              ["endpoint", "error"] (data.map (fun p => ([p.1.1, p.1.2], p.2)))])
      ++ (match reg.request_latency with
          | none => []
          | some data =>
            [renderHistBlock "request_latency"
              "Duration of HTTP requests in second distinguished by their endpoint and error status"
              ["endpoint", "error"] (data.map (fun p => ([p.1.1, p.1.2], p.2)))])
      ++ (match reg.http_requests with
          | none => []
          | some data =>
            [renderCounterBlock "http_requests"
              "Counts the responses distinguished by endpoint and status code bucket"
              ["endpoint", "status_code"] (data.map (fun p => ([p.1.1, p.1.2], p.2)))]))
    ++ "\n"

/-- The histogram data-model invariant of the spec, per label set: the
counts array has a slot per finite bound plus the `+Inf` slot, each finite
slot counts the observations not exceeding its bound, the `+Inf` slot,
the running count and the running sum agree with the observation
history. -/
def histOK (d : HistData) : Prop :=
  d.bucketCounts.length = nBuckets + 1 ∧
  (∀ i, i < nBuckets →
    d.bucketCounts.getD i 0 =
      d.observations.countP (fun x => decide (x ≤ bucketBound i))) ∧
  d.bucketCounts.getD nBuckets 0 = d.observations.length ∧
  d.count = d.observations.length ∧
  d.sum = d.observations.sum

theorem getD_replicate_zero (n i : ℕ) : (List.replicate n (0 : ℕ)).getD i 0 = 0 := by
  rw [List.getD_eq_getElem?_getD, List.getElem?_replicate]
  split <;> rfl

theorem emptyHist_histOK : histOK emptyHist := by
  refine ⟨List.length_replicate _ _, ?_, ?_, rfl, rfl⟩
  · intro i _
    simp [emptyHist, getD_replicate_zero]
  · simp [emptyHist, getD_replicate_zero]

theorem bumpCounts_length (v : ℚ) (counts : List ℕ) :
    (bumpCounts v counts).length = counts.length :=
  List.length_mapIdx

theorem bumpCounts_getD (v : ℚ) (counts : List ℕ) (i : ℕ) (h : i < counts.length) :
    (bumpCounts v counts).getD i 0 =
      if i < nBuckets then
        (if v ≤ bucketBound i then counts.getD i 0 + 1 else counts.getD i 0)
      else counts.getD i 0 + 1 := by
  have h1 : i < (bumpCounts v counts).length := by rwa [bumpCounts_length]
  rw [List.getD_eq_getElem?_getD, List.getElem?_eq_getElem h1,
    List.getD_eq_getElem?_getD counts, List.getElem?_eq_getElem h]
  simp only [Option.getD_some, bumpCounts, List.getElem_mapIdx]

theorem observeHist_histOK (v : ℚ) {d : HistData} (h : histOK d) :
    histOK (observeHist v d) := by
  obtain ⟨hlen, hfin, hinf, hcount, hsum⟩ := h
  refine ⟨?_, ?_, ?_, ?_, ?_⟩
  · simpa [observeHist, bumpCounts_length] using hlen
  · intro i hi
    have hslot : i < d.bucketCounts.length := by omega
    simp only [observeHist, bumpCounts_getD v d.bucketCounts i hslot, if_pos hi,
      List.countP_append, hfin i hi]
    by_cases hv : v ≤ bucketBound i
    · simp [hv, List.countP_cons]
    · simp [hv, List.countP_cons]
  · have hslot : nBuckets < d.bucketCounts.length := by omega
    have hb := bumpCounts_getD v d.bucketCounts nBuckets hslot
    rw [if_neg (lt_irrefl nBuckets)] at hb
    show (bumpCounts v d.bucketCounts).getD nBuckets 0 = (d.observations ++ [v]).length
    rw [hb, hinf]
    simp
  · simp [observeHist, hcount]
  · simp [observeHist, hsum]

theorem alGet_alUpdate_self {K V : Type} [DecidableEq K] (f : V → V) (d0 : V)
    (l : List (K × V)) (key : K) :
    alGet d0 (alUpdate f d0 l key) key = f (alGet d0 l key) := by
  induction l with
  | nil => simp [alGet, alUpdate]
  | cons p rest ih =>
    by_cases hk : p.1 = key
    · simp [alGet, alUpdate, hk]
    · simp [alGet, alUpdate, hk, ih]

theorem alGet_alUpdate_ne {K V : Type} [DecidableEq K] (f : V → V) (d0 : V)
    (l : List (K × V)) {key k : K} (hne : k ≠ key) :
    alGet d0 (alUpdate f d0 l key) k = alGet d0 l k := by
  induction l with
  | nil => simp [alGet, alUpdate, hne, Ne.symm hne]
  | cons p rest ih =>
    by_cases hk : p.1 = key
    · simp [alGet, alUpdate, hk, hne, Ne.symm hne]
    · by_cases hpk : p.1 = k <;>
        simp [alGet, alUpdate, hk, hpk, hne, Ne.symm hne, ih]

theorem hObserve_histOK {K : Type} [DecidableEq K] {h : List (K × HistData)}
    (hh : ∀ k, histOK (alGet emptyHist h k)) (key : K) (v : ℚ) :
    ∀ k, histOK (alGet emptyHist (hObserve h key v) k) := by
  intro k
  by_cases hk : k = key
  · subst hk
    rw [hObserve, alGet_alUpdate_self]
    exact observeHist_histOK v (hh k)
  · rw [hObserve, alGet_alUpdate_ne _ _ _ hk]
    exact hh k

theorem recordHttpResponseMetrics_operations (reg : Registry) (endpoint : String)
    (st : Option Int) :
    (recordHttpResponseMetrics reg endpoint st).operations = reg.operations := by
  unfold recordHttpResponseMetrics
  cases st with
  | none => rfl
  | some n => dsimp only; split <;> rfl

theorem recordHttpResponseMetrics_request_latency (reg : Registry) (endpoint : String)
    (st : Option Int) :
    (recordHttpResponseMetrics reg endpoint st).request_latency = reg.request_latency := by
  unfold recordHttpResponseMetrics
  cases st with
  | none => rfl
  | some n => dsimp only; split <;> rfl

theorem recordHttpResponseMetrics_requests (reg : Registry) (endpoint : String)
    (st : Option Int) :
    (recordHttpResponseMetrics reg endpoint st).requests = reg.requests := by
  unfold recordHttpResponseMetrics
  cases st with
  | none => rfl
  | some n => dsimp only; split <;> rfl

/-- The registry invariant: every label set of both histograms satisfies
the histogram data-model invariant. -/
def RegOK (reg : Registry) : Prop :=
  (∀ k, histOK (alGet emptyHist reg.operations k)) ∧
  (∀ k, histOK (alGet emptyHist (reg.request_latency.getD []) k))

theorem initialRegistry_RegOK : RegOK initialRegistry :=
  ⟨fun _ => emptyHist_histOK, fun _ => emptyHist_histOK⟩

theorem afterReport_RegOK {reg : Registry} (opts : Options) (span : Span)
    (h : RegOK reg) : RegOK (afterReport opts reg span) := by
  obtain ⟨hops, hlat⟩ := h
  unfold afterReport reportFinish
  cases hig : ignoreEval span opts.ignoreTags with
  | error e => exact ⟨hops, hlat⟩
  | ok b =>
    cases b with
    | true => exact ⟨hops, hlat⟩
    | false =>
      dsimp only
      by_cases hh : isHttpServerSpan span
      · rw [if_pos hh]
        unfold reportHttpRequestFinish
        cases hep : endpointName span with
        | error e => exact ⟨hops, hlat⟩
        | ok endpoint =>
          dsimp only
          constructor
          · intro k
            rw [recordHttpResponseMetrics_operations]
            exact hops k
          · intro k
            rw [recordHttpResponseMetrics_request_latency]
            exact hObserve_histOK hlat (endpoint, errorValue span) (span.duration / 1000) k
      · rw [if_neg hh]
        exact ⟨hObserve_histOK hops span.operationName (span.duration / 1000), hlat⟩

theorem runReports_RegOK (opts : Options) :
    ∀ (spans : List Span) (reg : Registry), RegOK reg → RegOK (runReports opts reg spans) := by
  intro spans
  induction spans with
  | nil => intro reg h; exact h
  | cons s rest ih =>
    intro reg h
    exact ih (afterReport opts reg s) (afterReport_RegOK opts s h)

/-- Whether a span is recorded into the `operations` histogram under a
given name: the ignore evaluation completes without matching, the span is
not an HTTP-server span, and its operation name is the given one. -/
def opRecorded (opts : Options) (name : String) (s : Span) : Bool :=
  match ignoreEval s opts.ignoreTags with
  | Except.ok false => !(isHttpServerSpan s) && (s.operationName == name)
  | _ => false

theorem afterReport_ops_obs (opts : Options) (reg : Registry) (span : Span)
    (name : String) :
    (alGet emptyHist (afterReport opts reg span).operations name).observations =
      (alGet emptyHist reg.operations name).observations ++
        (if opRecorded opts name span then [span.duration / 1000] else []) := by
  unfold afterReport reportFinish opRecorded
  cases hig : ignoreEval span opts.ignoreTags with
  | error e => simp
  | ok b =>
    cases b with
    | true => simp
    | false =>
      dsimp only
      by_cases hh : isHttpServerSpan span
      · rw [if_pos hh]
        unfold reportHttpRequestFinish
        cases hep : endpointName span with
        | error e => simp [hh]
        | ok endpoint =>
          dsimp only
          rw [recordHttpResponseMetrics_operations]
          simp [hh]
      · rw [if_neg hh]
        dsimp only [reportOperationFinish]
        by_cases hn : span.operationName = name
        · subst hn
          rw [hObserve, alGet_alUpdate_self]
          simp [observeHist, hh]
        · rw [hObserve, alGet_alUpdate_ne _ _ _ (Ne.symm hn)]
          simp [hh, hn]

theorem runReports_ops_obs (opts : Options) (name : String) :
    ∀ (spans : List Span) (reg : Registry),
      (alGet emptyHist (runReports opts reg spans).operations name).observations =
        (alGet emptyHist reg.operations name).observations ++
          (spans.filter (opRecorded opts name)).map (fun s => s.duration / 1000) := by
  intro spans
  induction spans with
  | nil => intro reg; simp [runReports]
  | cons s rest ih =>
    intro reg
    show (alGet emptyHist (runReports opts (afterReport opts reg s) rest).operations
        name).observations = _
    rw [ih (afterReport opts reg s), afterReport_ops_obs opts reg s name,
      List.filter_cons]
    by_cases hr : opRecorded opts name s
    · simp [hr, List.append_assoc]
    · simp [hr]

theorem buckets_sorted : List.Pairwise (· ≤ ·) DURATION_HISTOGRAM_BUCKETS := by
  norm_num [DURATION_HISTOGRAM_BUCKETS, List.pairwise_cons]

theorem bucketBound_mono {i j : ℕ} (hij : i ≤ j) (hj : j < nBuckets) :
    bucketBound i ≤ bucketBound j := by
  rcases Nat.lt_or_ge i j with hlt | hge
  · have hjl : j < DURATION_HISTOGRAM_BUCKETS.length := hj
    have hi : i < DURATION_HISTOGRAM_BUCKETS.length := lt_trans hlt hjl
    have hp := (List.pairwise_iff_getElem.mp buckets_sorted) i j hi hjl hlt
    rw [bucketBound, bucketBound, List.getD_eq_getElem?_getD, List.getD_eq_getElem?_getD,
      List.getElem?_eq_getElem hi, List.getElem?_eq_getElem hjl]
    simpa using hp
  · have heq : i = j := le_antisymm hij hge
    subst heq
    exact le_refl _

theorem histOK_counts_mono {d : HistData} (h : histOK d) {i j : ℕ} (hij : i ≤ j)
    (hj : j < d.bucketCounts.length) :
    d.bucketCounts.getD i 0 ≤ d.bucketCounts.getD j 0 := by
  obtain ⟨hlen, hfin, hinf, _, _⟩ := h
  rw [hlen] at hj
  rcases Nat.lt_or_ge j nBuckets with hjn | hjn
  · have hin : i < nBuckets := lt_of_le_of_lt hij hjn
    rw [hfin i hin, hfin j hjn]
    refine List.countP_mono_left ?_
    intro x _ hx
    exact decide_eq_true (le_trans (of_decide_eq_true hx) (bucketBound_mono hij hjn))
  · have hjeq : j = nBuckets := by omega
    subst hjeq
    rcases Nat.lt_or_ge i nBuckets with hin | hin
    · rw [hfin i hin, hinf]
      exact List.countP_le_length _
    · have heq : i = nBuckets := by omega
      subst heq
      exact le_refl _

/-- The facts the specification claims of each histogram label set: the
cumulative bucket counts are non-decreasing in the bucket index, the
`+Inf` slot and the running count both equal the number of observations,
and the running sum is the arithmetic sum of the observations. -/
def histClaims (d : HistData) : Prop :=
  (∀ i j, i ≤ j → j < d.bucketCounts.length →
    d.bucketCounts.getD i 0 ≤ d.bucketCounts.getD j 0) ∧
  d.bucketCounts.getD nBuckets 0 = d.observations.length ∧
  d.count = d.observations.length ∧
  d.sum = d.observations.sum

theorem histOK_histClaims {d : HistData} (h : histOK d) : histClaims d :=
  ⟨fun _ _ hij hj => histOK_counts_mono h hij hj, h.2.2.1, h.2.2.2.1, h.2.2.2.2⟩

/-- C1: for every histogram in the registry (`operations` and
`request_latency`) and every label set, after any sequence of
`reportFinish` calls on a freshly constructed reporter, the cumulative
bucket counts are non-decreasing in the bucket index, the `+Inf` bucket
count equals the total observation count of that label set, and the sum
equals the arithmetic sum of the observed values; the `operations`
observations under a name label are exactly `duration / 1000` of the
non-ignored non-HTTP spans bearing that operation name, in order. -/
theorem C1_histogram_invariants (opts : Options) (spans : List Span) :
    (∀ name : String,
      histClaims (alGet emptyHist (runReports opts initialRegistry spans).operations name) ∧
      (alGet emptyHist (runReports opts initialRegistry spans).operations name).observations =
        (spans.filter (opRecorded opts name)).map (fun s => s.duration / 1000)) ∧
    (∀ lbl : String × String,
      histClaims
        (alGet emptyHist
          ((runReports opts initialRegistry spans).request_latency.getD []) lbl)) := by
  have hreg := runReports_RegOK opts spans initialRegistry initialRegistry_RegOK
  constructor
  · intro name
    constructor
    · exact histOK_histClaims (hreg.1 name)
    · have := runReports_ops_obs opts name spans initialRegistry
      simpa [initialRegistry, alGet, emptyHist] using this
  · intro lbl
    exact histOK_histClaims (hreg.2 lbl)

/-- An ignore rule matches a span: the span's tag under the rule's key is
a non-empty (hence truthy) string that the rule's pattern matches. -/
def ruleMatches (s : Span) (r : String × (String → Bool)) : Prop :=
  ∃ v, s.getTag r.1 = TagValue.str v ∧ v ≠ "" ∧ r.2 v = true

/-- An ignore rule is passed over without effect and without error: the
span's tag under the rule's key is falsy, or is a string the rule's
pattern does not match. -/
def ruleSafeSkip (s : Span) (r : String × (String → Bool)) : Prop :=
  truthy (s.getTag r.1) = false ∨
  ∃ v, s.getTag r.1 = TagValue.str v ∧ r.2 v = false

theorem ignoreEval_of_ruleSafeSkip (s : Span) (r : String × (String → Bool))
    (rest : List (String × (String → Bool))) (h : ruleSafeSkip s r) :
    ignoreEval s (r :: rest) = ignoreEval s rest := by
  obtain ⟨k, p⟩ := r
  rcases h with hf | ⟨v, hv, hp⟩
  · simp [ignoreEval, hf]
  · have hp' : p v = false := hp
    by_cases hvnil : v = ""
    · subst hvnil
      simp [ignoreEval, hv, truthy]
    · simp [ignoreEval, hv, truthy, hvnil, hp']

theorem ignoreEval_of_match (s : Span) (pre : List (String × (String → Bool)))
    (r : String × (String → Bool)) (post : List (String × (String → Bool)))
    (hsafe : ∀ r' ∈ pre, ruleSafeSkip s r') (hm : ruleMatches s r) :
    ignoreEval s (pre ++ r :: post) = Except.ok true := by
  induction pre with
  | nil =>
    obtain ⟨k, p⟩ := r
    obtain ⟨v, hv, hne, hp⟩ := hm
    have hp' : p v = true := hp
    simp only [List.nil_append]
    simp [ignoreEval, hv, truthy, hne, hp']
  | cons a pre ih =>
    rw [List.cons_append,
      ignoreEval_of_ruleSafeSkip s a _ (hsafe a (List.mem_cons_self a pre))]
    exact ih (fun r' hr' => hsafe r' (List.mem_cons_of_mem a hr'))

theorem ignoreEval_throw (s : Span) (pre : List (String × (String → Bool)))
    (r : String × (String → Bool)) (post : List (String × (String → Bool)))
    (hsafe : ∀ r' ∈ pre, ruleSafeSkip s r') (ht : truthy (s.getTag r.1) = true)
    (hns : ∀ v, s.getTag r.1 ≠ TagValue.str v) :
    ignoreEval s (pre ++ r :: post) = Except.error JsError.typeError := by
  induction pre with
  | nil =>
    obtain ⟨k, p⟩ := r
    simp only [List.nil_append]
    cases hv : s.getTag k with
    | undef => rw [hv] at ht; simp [truthy] at ht
    | str v => exact absurd hv (hns v)
    | num q => rw [hv] at ht; simp [ignoreEval, hv, ht]
    | bool b => rw [hv] at ht; simp [ignoreEval, hv, ht]
  | cons a pre ih =>
    rw [List.cons_append,
      ignoreEval_of_ruleSafeSkip s a _ (hsafe a (List.mem_cons_self a pre))]
    exact ih (fun r' hr' => hsafe r' (List.mem_cons_of_mem a hr'))

/-- C2 (amended): for every reporter state and every span, if some
configured ignore rule has on this span a non-empty string tag value
matching its pattern, and every rule listed before that one has a falsy or
non-matching string value (so that the evaluation reaches the matching
rule rather than throwing on a truthy non-string value), then
`reportFinish` returns leaving the registry unchanged and the rendered
`metrics()` output byte-equal. -/
theorem C2_ignored_span_no_effect (opts : Options) (reg : Registry) (span : Span)
    (h : ∃ pre r post, opts.ignoreTags = pre ++ r :: post ∧
      (∀ r' ∈ pre, ruleSafeSkip span r') ∧ ruleMatches span r) :
    reportFinish opts reg span = Except.ok reg ∧
    Except.map render (reportFinish opts reg span) = Except.ok (render reg) := by
  obtain ⟨pre, r, post, heq, hsafe, hm⟩ := h
  have hig : ignoreEval span opts.ignoreTags = Except.ok true := by
    rw [heq]
    exact ignoreEval_of_match span pre r post hsafe hm
  constructor
  · simp [reportFinish, hig]
  · simp [reportFinish, hig, Except.map]

def ruleA : String × (String → Bool) := ("a", fun v => v = "x")

def ruleB : String × (String → Bool) := ("b", fun v => v = "y")

/-- A reporter configured with two ignore rules, on keys `a` and `b`. -/
def optsTwoRules : Options := ⟨[ruleA, ruleB]⟩

/-- A span whose tag under the first rule's key is a truthy number and
whose tag under the second rule's key is a string matching that rule. -/
def spanNumFirst : Span :=
  ⟨"op", 100, [("a", TagValue.num 5), ("b", TagValue.str "y")]⟩

/-- C2 counterexample: a span for which some configured rule (on key `b`)
has a matching string tag value, yet `reportFinish` does not return — the
evaluation reaches the rule on key `a` first, whose tag value is a truthy
number without a `match` method, and throws a `TypeError` (the registry is
still unchanged, but the call does not return). -/
theorem C2_counterexample :
    ruleB ∈ optsTwoRules.ignoreTags ∧ ruleMatches spanNumFirst ruleB ∧
    reportFinish optsTwoRules initialRegistry spanNumFirst =
      Except.error (JsError.typeError, initialRegistry) ∧
    (∀ r : Registry,
      reportFinish optsTwoRules initialRegistry spanNumFirst ≠ Except.ok r) := by
  refine ⟨by simp [optsTwoRules], ⟨"y", rfl, by decide, by decide⟩, rfl, ?_⟩
  intro r h
  rw [(rfl :
    reportFinish optsTwoRules initialRegistry spanNumFirst =
      Except.error (JsError.typeError, initialRegistry))] at h
  exact Except.noConfusion h

/-- A reporter configured with a single ignore rule, on key `u`. -/
def optsOneRule : Options := ⟨[("u", fun v => v = "foo")]⟩

/-- A span whose tag under key `u` matches the single rule. -/
def spanIgnored : Span := ⟨"op", 100, [("u", TagValue.str "foo")]⟩

/-- C2 witness: the amended theorem applied to the single-rule reporter
and a span matching its rule. -/
theorem C2_witness :
    (∃ pre r post, optsOneRule.ignoreTags = pre ++ r :: post ∧
      (∀ r' ∈ pre, ruleSafeSkip spanIgnored r') ∧ ruleMatches spanIgnored r) ∧
    reportFinish optsOneRule initialRegistry spanIgnored = Except.ok initialRegistry ∧
    Except.map render (reportFinish optsOneRule initialRegistry spanIgnored) =
      Except.ok (render initialRegistry) := by
  have h : ∃ pre r post, optsOneRule.ignoreTags = pre ++ r :: post ∧
      (∀ r' ∈ pre, ruleSafeSkip spanIgnored r') ∧ ruleMatches spanIgnored r :=
    ⟨[], ("u", fun v => v = "foo"), [], rfl, by simp, ⟨"foo", rfl, by decide, by decide⟩⟩
  exact ⟨h, C2_ignored_span_no_effect optsOneRule initialRegistry spanIgnored h⟩

/-- C9 (amended): for every reporter and every span, if some configured
ignore rule has on this span a truthy non-string tag value and every rule
listed before it is passed over (falsy or non-matching string value), then
`reportFinish` throws a `TypeError` during ignore-rule evaluation rather
than treating the rule as non-matching, and no metric is created or
mutated (the thrown error carries the unchanged registry). -/
theorem C9_truthy_nonstring_tag_throws (opts : Options) (reg : Registry) (span : Span)
    (h : ∃ pre r post, opts.ignoreTags = pre ++ r :: post ∧
      (∀ r' ∈ pre, ruleSafeSkip span r') ∧ truthy (span.getTag r.1) = true ∧
      (∀ v, span.getTag r.1 ≠ TagValue.str v)) :
    reportFinish opts reg span = Except.error (JsError.typeError, reg) := by
  obtain ⟨pre, r, post, heq, hsafe, ht, hns⟩ := h
  have hig : ignoreEval span opts.ignoreTags = Except.error JsError.typeError := by
    rw [heq]
    exact ignoreEval_throw span pre r post hsafe ht hns
  simp [reportFinish, hig]

/-- A span whose tag under the first rule's key is a matching string and
whose tag under the second rule's key is a truthy number. -/
def spanStrFirst : Span :=
  ⟨"op", 100, [("a", TagValue.str "x"), ("b", TagValue.num 5)]⟩

/-- C9 counterexample: a reporter with two ignore rules and a span whose
tag under the second rule's key is a truthy number; the claim predicts a
`TypeError`, but the first rule matches first and `reportFinish` returns
normally as a silent no-op. -/
theorem C9_counterexample :
    optsTwoRules.ignoreTags ≠ [] ∧
    (∃ r ∈ optsTwoRules.ignoreTags, truthy (spanStrFirst.getTag r.1) = true ∧
      ∀ v, spanStrFirst.getTag r.1 ≠ TagValue.str v) ∧
    reportFinish optsTwoRules initialRegistry spanStrFirst =
      Except.ok initialRegistry := by
  refine ⟨by simp [optsTwoRules], ⟨ruleB, by simp [optsTwoRules], by decide, ?_⟩, rfl⟩
  intro v h
  exact TagValue.noConfusion h

/-- A reporter with a single ignore rule on key `n`. -/
def optsNumRule : Options := ⟨[("n", fun v => v = "x")]⟩

/-- A span whose tag under key `n` is the number `7`. -/
def spanNumTag : Span := ⟨"op", 100, [("n", TagValue.num 7)]⟩

/-- C9 witness: the amended theorem applied to a single-rule reporter and
a span carrying a truthy number under the rule's key. -/
theorem C9_witness :
    (∃ pre r post, optsNumRule.ignoreTags = pre ++ r :: post ∧
      (∀ r' ∈ pre, ruleSafeSkip spanNumTag r') ∧ truthy (spanNumTag.getTag r.1) = true ∧
      (∀ v, spanNumTag.getTag r.1 ≠ TagValue.str v)) ∧
    reportFinish optsNumRule initialRegistry spanNumTag =
      Except.error (JsError.typeError, initialRegistry) := by
  have h : ∃ pre r post, optsNumRule.ignoreTags = pre ++ r :: post ∧
      (∀ r' ∈ pre, ruleSafeSkip spanNumTag r') ∧ truthy (spanNumTag.getTag r.1) = true ∧
      (∀ v, spanNumTag.getTag r.1 ≠ TagValue.str v) :=
    ⟨[], ("n", fun v => v = "x"), [], rfl, by simp, by decide,
      fun v h => TagValue.noConfusion h⟩
  exact ⟨h, C9_truthy_nonstring_tag_throws optsNumRule initialRegistry spanNumTag h⟩

/-- C3 counterexample: with both arguments non-empty, `metricName` returns
the sanitized namespace alone — `metricName("foo", "bar")` is `"bar"`, not
the claimed `"bar:foo"`. -/
theorem C3_counterexample :
    metricName "foo" "bar" = "bar" ∧ metricName "foo" "bar" ≠ "bar:foo" := by
  constructor <;> decide

/-- C3 (amended): for every non-empty name and non-empty namespace,
`metricName` returns the namespace alone with every `.` and `-` replaced
by `_`; the name is dropped, and the composite `namespace:name` form is
reached only when the name is empty. -/
theorem C3_metricName_both_nonempty (name nspace : String)
    (hname : name ≠ "") (hns : nspace ≠ "") :
    metricName name nspace = String.mk (nspace.data.map nsChar) := by
  unfold metricName
  rw [if_neg hns, if_pos hname]
  rfl

/-- C3 witness: the amended theorem at `("foo.a", "bar-b")`, whose result
is the sanitized namespace `"bar_b"`. -/
theorem C3_witness :
    ("foo.a" : String) ≠ "" ∧ ("bar-b" : String) ≠ "" ∧
    metricName "foo.a" "bar-b" = "bar_b" := by
  refine ⟨by decide, by decide, ?_⟩
  rw [C3_metricName_both_nonempty "foo.a" "bar-b" (by decide) (by decide)]
  decide

/-- The HTTP-server span of the spec's endpoint-normalization example:
URL `http://127.0.0.1/foo`, method `GET`, status `200`. -/
def exampleSpan : Span :=
  ⟨"http_request", 100,
    [(HTTP_URL, TagValue.str "http://127.0.0.1/foo"),
     (HTTP_METHOD, TagValue.str "GET"),
     (HTTP_STATUS_CODE, TagValue.num 200),
     (SPAN_KIND, TagValue.str SPAN_KIND_RPC_SERVER)]⟩

/-- C5: a span with a falsy HTTP-URL tag gets the literal endpoint
`other`; a span with a string URL tag that parses and a string method tag
gets the normalized `"{SCHEME} {METHOD} {path}"` composite (scheme
upper-cased without its trailing `:`, method upper-cased, path defaulting
to `/`, every character outside `[A-Za-z0-9\-_/.]` replaced by `-`); in
particular the example span maps to the label `HTTP-GET-` followed by
`/foo`. -/
theorem C5_endpointName (span : Span) (u : String) (rec : URLRec) (m : String)
    (hurl : span.getTag HTTP_URL = TagValue.str u) (hu : u ≠ "")
    (hparse : parseURL u = Except.ok rec)
    (hm : span.getTag HTTP_METHOD = TagValue.str m) :
    endpointName span =
      Except.ok (normalizeIdentifier
        (jsUpper (String.mk rec.protocol.data.dropLast) ++ " " ++ jsUpper m ++ " " ++
          (if rec.pathname = "" then "/" else rec.pathname))) ∧
    (∀ sp : Span, truthy (sp.getTag HTTP_URL) = false →
      endpointName sp = Except.ok LABEL_OTHER) ∧
    endpointName exampleSpan = Except.ok "HTTP-GET-/foo" := by
  refine ⟨?_, ?_, rfl⟩
  · have htru : truthy (TagValue.str u) = true := by simp [truthy, hu]
    simp only [endpointName, hurl, htru, Bool.not_true, Bool.false_eq_true, if_false,
      jsToString, hparse, hm]
  · intro sp hsp
    simp [endpointName, hsp]

/-- C5 witness: the theorem at the example span, whose URL parses to
scheme `http:` and path `/foo` and whose method tag is `GET`. -/
theorem C5_witness :
    exampleSpan.getTag HTTP_URL = TagValue.str "http://127.0.0.1/foo" ∧
    ("http://127.0.0.1/foo" : String) ≠ "" ∧
    parseURL "http://127.0.0.1/foo" = Except.ok ⟨"http:", "/foo"⟩ ∧
    exampleSpan.getTag HTTP_METHOD = TagValue.str "GET" ∧
    endpointName exampleSpan =
      Except.ok (normalizeIdentifier
        (jsUpper (String.mk ("http:" : String).data.dropLast) ++ " " ++ jsUpper "GET" ++
          " " ++ (if ("/foo" : String) = "" then "/" else "/foo"))) := by
  refine ⟨rfl, by decide, rfl, rfl, ?_⟩
  exact (C5_endpointName exampleSpan "http://127.0.0.1/foo" ⟨"http:", "/foo"⟩ "GET"
    rfl (by decide) rfl rfl).1

/-- C6 (amended): `isHttpServerSpan` holds iff the span-kind tag equals
the RPC-server sentinel and at least one of the HTTP-URL, HTTP-METHOD and
HTTP-STATUS-CODE tags carries a truthy value (mere presence of a falsy
value, such as an empty string, does not qualify). -/
theorem C6_isHttpServerSpan_iff (span : Span) :
    isHttpServerSpan span = true ↔
      (span.getTag SPAN_KIND = TagValue.str SPAN_KIND_RPC_SERVER ∧
        (truthy (span.getTag HTTP_URL) = true ∨
          truthy (span.getTag HTTP_METHOD) = true ∨
          truthy (span.getTag HTTP_STATUS_CODE) = true)) := by
  simp [isHttpServerSpan, Bool.and_eq_true, Bool.or_eq_true, beq_iff_eq, or_assoc]

/-- A span whose span-kind tag is the RPC-server sentinel and whose
HTTP-METHOD tag is present but is the empty string. -/
def spanEmptyMethod : Span :=
  ⟨"op", 100, [(SPAN_KIND, TagValue.str SPAN_KIND_RPC_SERVER),
    (HTTP_METHOD, TagValue.str "")]⟩

/-- C6 counterexample: a span with the RPC-server kind and a present
HTTP-METHOD tag (the empty string) that the claim classifies as an
HTTP-server span, yet `isHttpServerSpan` returns `false` because the code
tests truthiness, not presence. -/
theorem C6_counterexample :
    spanEmptyMethod.getTag SPAN_KIND = TagValue.str SPAN_KIND_RPC_SERVER ∧
    spanEmptyMethod.getTag HTTP_METHOD ≠ TagValue.undef ∧
    isHttpServerSpan spanEmptyMethod = false := by
  refine ⟨by decide, by decide, by decide⟩

/-- C7: `errorValue` returns `"true"` exactly when the `error` tag is
present and either is a string whose lower-casing is `"true"` or is a
truthy non-string value; in every other case it returns `"false"`. -/
theorem C7_errorValue_iff (span : Span) :
    (errorValue span = "true" ↔
      (span.getTag "error" ≠ TagValue.undef ∧
        ((∃ s, span.getTag "error" = TagValue.str s ∧ jsLower s = "true") ∨
          (truthy (span.getTag "error") = true ∧
            ∀ s, span.getTag "error" ≠ TagValue.str s)))) ∧
    (errorValue span = "true" ∨ errorValue span = "false") := by
  cases hv : span.getTag "error" with
  | undef => simp [errorValue, hv, truthy, isStringNotTrue]
  | str s =>
    by_cases hs : s = ""
    · subst hs
      simp [errorValue, hv, truthy, isStringNotTrue]
      decide
    · by_cases htr : jsLower s = "true"
      · simp [errorValue, hv, truthy, isStringNotTrue, hs, htr]
      · simp [errorValue, hv, truthy, isStringNotTrue, hs, htr]
  | num q =>
    by_cases hq : q = 0 <;>
      simp [errorValue, hv, truthy, isStringNotTrue, hq]
  | bool b =>
    cases b <;> simp [errorValue, hv, truthy, isStringNotTrue]

/-- The value of the `http_requests` counter under a label set (`0` when
the metric or the label set does not exist yet). -/
def httpRequestsVal (reg : Registry) (lbl : String × String) : ℕ :=
  alGet 0 (reg.http_requests.getD []) lbl

/-- The value of the `requests` counter under a label set. -/
def requestsVal (reg : Registry) (lbl : String × String) : ℕ :=
  alGet 0 (reg.requests.getD []) lbl

/-- The `request_latency` histogram data under a label set. -/
def latencyData (reg : Registry) (lbl : String × String) : HistData :=
  alGet emptyHist (reg.request_latency.getD []) lbl

/-- C4: for every HTTP-server span processed by `reportFinish` (not
ignored, endpoint computed, status tag parsing to an integer `n`), with
`d` the truncation of `n` by 100 — the hundreds digit for three-digit
status codes — the call returns, the `http_requests` counter gains exactly
one at the label `(endpoint, "<d>xx")` when `2 ≤ d ≤ 5` and no
`http_requests` label changes otherwise, while the `requests` counter and
the `request_latency` histogram record the span in both cases. -/
theorem C4_status_code_bucketing (opts : Options) (reg : Registry) (span : Span)
    (endpoint : String) (n : Int)
    (hig : ignoreEval span opts.ignoreTags = Except.ok false)
    (hh : isHttpServerSpan span = true)
    (hep : endpointName span = Except.ok endpoint)
    (hst : jsParseIntTag (span.getTag HTTP_STATUS_CODE) = some n) :
    ∃ reg', reportFinish opts reg span = Except.ok reg' ∧
      (∀ lbl : String × String,
        httpRequestsVal reg' lbl =
          if 2 ≤ Int.tdiv n 100 ∧ Int.tdiv n 100 ≤ 5 ∧
              lbl = (endpoint, toString (Int.tdiv n 100) ++ "xx")
          then httpRequestsVal reg lbl + 1 else httpRequestsVal reg lbl) ∧
      requestsVal reg' (endpoint, errorValue span) =
        requestsVal reg (endpoint, errorValue span) + 1 ∧
      (latencyData reg' (endpoint, errorValue span)).observations =
        (latencyData reg (endpoint, errorValue span)).observations ++
          [span.duration / 1000] := by
  have hrep : reportFinish opts reg span =
      Except.ok (recordHttpResponseMetrics
        { reg with
          requests := some (cInc (reg.requests.getD []) (endpoint, errorValue span))
          request_latency := some (hObserve (reg.request_latency.getD [])
            (endpoint, errorValue span) (span.duration / 1000)) }
        endpoint (some n)) := by
    unfold reportFinish reportHttpRequestFinish
    rw [hig]
    simp [hh, hep, hst]
  have hrec : ∀ (r : Registry),
      recordHttpResponseMetrics r endpoint (some n) =
        if 2 ≤ Int.tdiv n 100 ∧ Int.tdiv n 100 ≤ 5 then
          { r with http_requests := some (cInc (r.http_requests.getD [])
              (endpoint, toString (Int.tdiv n 100) ++ "xx")) }
        else r :=
    fun r => rfl
  refine ⟨_, hrep, ?_, ?_, ?_⟩
  · intro lbl
    rw [hrec]
    by_cases hm : 2 ≤ Int.tdiv n 100 ∧ Int.tdiv n 100 ≤ 5
    · rw [if_pos hm]
      by_cases hlbl : lbl = (endpoint, toString (Int.tdiv n 100) ++ "xx")
      · subst hlbl
        rw [if_pos ⟨hm.1, hm.2, rfl⟩]
        dsimp only [httpRequestsVal]
        simp only [Option.getD_some, cInc, alGet_alUpdate_self]
      · rw [if_neg (fun hc => hlbl hc.2.2)]
        dsimp only [httpRequestsVal]
        simp only [Option.getD_some, cInc, alGet_alUpdate_ne _ _ _ hlbl]
    · rw [if_neg hm, if_neg (fun hc => hm ⟨hc.1, hc.2.1⟩)]
      rfl
  · unfold requestsVal
    rw [recordHttpResponseMetrics_requests]
    simp only [Option.getD_some, cInc, alGet_alUpdate_self]
  · unfold latencyData
    rw [recordHttpResponseMetrics_request_latency]
    simp only [Option.getD_some, hObserve, alGet_alUpdate_self, observeHist]

/-- The default construction options: no ignore rules. -/
def emptyOpts : Options := ⟨[]⟩

/-- An HTTP-server span with URL `http://127.0.0.1/foo`, method `GET` and
status `404`. -/
def span404 : Span :=
  ⟨"http_request", 100,
    [(HTTP_URL, TagValue.str "http://127.0.0.1/foo"),
     (HTTP_METHOD, TagValue.str "GET"),
     (HTTP_STATUS_CODE, TagValue.num 404),
     (SPAN_KIND, TagValue.str SPAN_KIND_RPC_SERVER)]⟩

/-- C4 witness: the theorem at a fresh reporter and a status-404 span,
whose hundreds digit 4 lies in `[2,5]`. -/
theorem C4_witness :
    ignoreEval span404 emptyOpts.ignoreTags = Except.ok false ∧
    isHttpServerSpan span404 = true ∧
    endpointName span404 = Except.ok "HTTP-GET-/foo" ∧
    jsParseIntTag (span404.getTag HTTP_STATUS_CODE) = some 404 ∧
    (∃ reg', reportFinish emptyOpts initialRegistry span404 = Except.ok reg' ∧
      (∀ lbl : String × String,
        httpRequestsVal reg' lbl =
          if 2 ≤ Int.tdiv 404 100 ∧ Int.tdiv 404 100 ≤ 5 ∧
              lbl = ("HTTP-GET-/foo", toString (Int.tdiv (404 : Int) 100) ++ "xx")
          then httpRequestsVal initialRegistry lbl + 1
          else httpRequestsVal initialRegistry lbl) ∧
      requestsVal reg' ("HTTP-GET-/foo", errorValue span404) =
        requestsVal initialRegistry ("HTTP-GET-/foo", errorValue span404) + 1 ∧
      (latencyData reg' ("HTTP-GET-/foo", errorValue span404)).observations =
        (latencyData initialRegistry
          ("HTTP-GET-/foo", errorValue span404)).observations ++
          [span404.duration / 1000]) := by
  refine ⟨rfl, by decide, rfl, by decide, ?_⟩
  exact C4_status_code_bucketing emptyOpts initialRegistry span404 "HTTP-GET-/foo" 404
    rfl (by decide) rfl (by decide)

/-- C8: for every HTTP-server span reaching the recording path (ignore
evaluation completes without a match) whose HTTP-URL tag is a truthy
string that fails to parse, `reportFinish` propagates the URL parse error
to its caller and the registry is exactly what it was before the call —
no counter incremented, no histogram observation recorded. -/
theorem C8_malformed_url_propagates (opts : Options) (reg : Registry) (span : Span)
    (u : String)
    (hurl : span.getTag HTTP_URL = TagValue.str u) (hu : u ≠ "")
    (hbad : parseURL u = Except.error JsError.urlError)
    (hig : ignoreEval span opts.ignoreTags = Except.ok false)
    (hh : isHttpServerSpan span = true) :
    reportFinish opts reg span = Except.error (JsError.urlError, reg) := by
  have htru : truthy (TagValue.str u) = true := by simp [truthy, hu]
  have hep : endpointName span = Except.error JsError.urlError := by
    simp only [endpointName, hurl, htru, Bool.not_true, Bool.false_eq_true, if_false,
      jsToString, hbad]
  unfold reportFinish reportHttpRequestFinish
  rw [hig]
  simp [hh, hep]

/-- An HTTP-server span whose HTTP-URL tag does not parse as a URL. -/
def spanBadUrl : Span :=
  ⟨"http_request", 100,
    [(HTTP_URL, TagValue.str "notaurl"),
     (SPAN_KIND, TagValue.str SPAN_KIND_RPC_SERVER)]⟩

/-- C8 witness: the theorem at a fresh reporter and the malformed-URL
span. -/
theorem C8_witness :
    spanBadUrl.getTag HTTP_URL = TagValue.str "notaurl" ∧
    ("notaurl" : String) ≠ "" ∧
    parseURL "notaurl" = Except.error JsError.urlError ∧
    ignoreEval spanBadUrl emptyOpts.ignoreTags = Except.ok false ∧
    isHttpServerSpan spanBadUrl = true ∧
    reportFinish emptyOpts initialRegistry spanBadUrl =
      Except.error (JsError.urlError, initialRegistry) := by
  refine ⟨rfl, by decide, rfl, rfl, by decide, ?_⟩
  exact C8_malformed_url_propagates emptyOpts initialRegistry spanBadUrl "notaurl"
    rfl (by decide) rfl rfl (by decide)

/-- C10 (amended): a span whose HTTP-URL tag is a truthy string that
parses while its HTTP-METHOD tag is absent makes `endpointName` throw a
`TypeError` (`toUpperCase` on `undefined`), so an HTTP-server span
classified by its URL tag alone makes `reportFinish` throw with no metric
recorded; a span classified by its status-code tag alone, however, gets
the endpoint `other` and records normally. -/
theorem C10_missing_method_throws (span : Span) (u : String) (rec : URLRec)
    (hurl : span.getTag HTTP_URL = TagValue.str u) (hu : u ≠ "")
    (hparse : parseURL u = Except.ok rec)
    (hm : span.getTag HTTP_METHOD = TagValue.undef) :
    endpointName span = Except.error JsError.typeError ∧
    (∀ (opts : Options) (reg : Registry),
      ignoreEval span opts.ignoreTags = Except.ok false →
      isHttpServerSpan span = true →
      reportFinish opts reg span = Except.error (JsError.typeError, reg)) := by
  have htru : truthy (TagValue.str u) = true := by simp [truthy, hu]
  have hep : endpointName span = Except.error JsError.typeError := by
    simp only [endpointName, hurl, htru, Bool.not_true, Bool.false_eq_true, if_false,
      jsToString, hparse, hm]
  refine ⟨hep, ?_⟩
  intro opts reg hig hh
  unfold reportFinish reportHttpRequestFinish
  rw [hig]
  simp [hh, hep]

/-- An HTTP-server span classified by its status-code tag alone: RPC-server
kind and a status tag, but no URL and no method. -/
def spanStatusOnly : Span :=
  ⟨"op", 100, [(SPAN_KIND, TagValue.str SPAN_KIND_RPC_SERVER),
    (HTTP_STATUS_CODE, TagValue.num 200)]⟩

/-- C10 counterexample: an HTTP-server span classified by its status-code
tag alone does not make `reportFinish` throw — the absent URL tag routes
`endpointName` to the literal `other` before the method tag is ever read,
the call returns, and the `requests` counter is recorded. -/
theorem C10_counterexample :
    isHttpServerSpan spanStatusOnly = true ∧
    spanStatusOnly.getTag HTTP_URL = TagValue.undef ∧
    spanStatusOnly.getTag HTTP_METHOD = TagValue.undef ∧
    reportOk emptyOpts initialRegistry spanStatusOnly = true ∧
    requestsVal (afterReport emptyOpts initialRegistry spanStatusOnly)
      (LABEL_OTHER, "false") = 1 := by
  refine ⟨by decide, by decide, by decide, rfl, rfl⟩

/-- A span with the RPC-server kind and a parsable URL tag but no method
tag. -/
def spanUrlNoMethod : Span :=
  ⟨"op", 100, [(SPAN_KIND, TagValue.str SPAN_KIND_RPC_SERVER),
    (HTTP_URL, TagValue.str "http://127.0.0.1/foo")]⟩

/-- C10 witness: the amended theorem at the URL-only span and a fresh
reporter. -/
theorem C10_witness :
    spanUrlNoMethod.getTag HTTP_URL = TagValue.str "http://127.0.0.1/foo" ∧
    ("http://127.0.0.1/foo" : String) ≠ "" ∧
    parseURL "http://127.0.0.1/foo" = Except.ok ⟨"http:", "/foo"⟩ ∧
    spanUrlNoMethod.getTag HTTP_METHOD = TagValue.undef ∧
    endpointName spanUrlNoMethod = Except.error JsError.typeError ∧
    reportFinish emptyOpts initialRegistry spanUrlNoMethod =
      Except.error (JsError.typeError, initialRegistry) := by
  have h := C10_missing_method_throws spanUrlNoMethod "http://127.0.0.1/foo"
    ⟨"http:", "/foo"⟩ rfl (by decide) rfl rfl
  exact ⟨rfl, by decide, rfl, rfl, h.1, h.2 emptyOpts initialRegistry rfl (by decide)⟩
